import Mathlib

/-!
Verification of the planning-poker synchronization layer.

The definitions below are a shallow embedding of the client code in
`src/lib/supabase.ts` and of the relevant component handlers
(`StoryManager.moveStory`, `VotingDeck.handleCardClick`,
`PokerSession.loadSessionData`).  The backing store is modelled as an
explicit record of three row lists (sessions, participants, stories);
each supabase query/mutation is translated into the corresponding pure
list operation, and timestamps are modelled as naturals.
-/

namespace PlanningPoker

/-- Row of the `sessions` table (interface `Session` in supabase.ts). -/
structure Session where
  id : String
  room_code : String
  name : String
  organizer_id : String
  current_story_id : Option String
  votes_revealed : Bool
  created_at : Nat
  updated_at : Nat
deriving Repr, DecidableEq

/-- Row of the `participants` table (interface `Participant` in supabase.ts).
The `session_id` column is nullable: `createSession` inserts the organizer
with a null session reference. -/
structure Participant where
  id : String
  session_id : Option String
  name : String
  avatar : Option String
  is_organizer : Bool
  has_voted : Bool
  vote : Option String
  joined_at : Nat
  last_seen : Nat
deriving Repr, DecidableEq

/-- Status column of the `stories` table. -/
inductive StoryStatus
| pending
| estimated
| completed
deriving Repr, DecidableEq

/-- Row of the `stories` table (interface `Story` in supabase.ts). -/
structure Story where
  id : String
  session_id : Option String
  title : String
  description : Option String
  status : StoryStatus
  order_index : Int
  created_at : Nat
deriving Repr, DecidableEq

/-- State of the backing store: the three tables. -/
structure DB where
  sessions : List Session
  participants : List Participant
  stories : List Story
deriving Repr, DecidableEq

/-- Model of JavaScript `String.prototype.toUpperCase` on the ASCII strings
used for room codes. -/
def jsToUpper (s : String) : String :=
  String.mk (s.data.map Char.toUpper)

/-- Model of supabase `.single()`: a single row is returned exactly when the
query matched one row; zero or several matches yield an error (`PGRST116`),
surfaced here as `none`. -/
def singleRow {α : Type} (l : List α) : Option α :=
  match l with
  | [x] => some x
  | _ => none

/-- Embedding of `updateParticipantVote` (supabase.ts lines 279-289): one
update setting `vote` and `has_voted = true` on the row whose id matches. -/
def updateParticipantVote (db : DB) (participantId : String) (vote : String) : DB :=
  { db with
    participants := db.participants.map fun p =>
      if p.id = participantId then { p with vote := some vote, has_voted := true } else p }

/-- Embedding of `revealVotes` (supabase.ts lines 291-298): one update setting
`votes_revealed = true` on the session row whose id matches. -/
def revealVotes (db : DB) (sessionId : String) : DB :=
  { db with
    sessions := db.sessions.map fun s =>
      if s.id = sessionId then { s with votes_revealed := true } else s }

/-- Embedding of `resetVotes` (supabase.ts lines 300-314): two updates issued
together, one clearing the session's reveal flag, one clearing `vote` and
`has_voted` of every participant of that session. -/
def resetVotes (db : DB) (sessionId : String) : DB :=
  { db with
    sessions := db.sessions.map fun s =>
      if s.id = sessionId then { s with votes_revealed := false } else s,
    participants := db.participants.map fun p =>
      if p.session_id = some sessionId then { p with vote := none, has_voted := false } else p }

/-- Fixture participant of session s1 with a cast vote. -/
def wP1 : Participant :=
  { id := "p1", session_id := some "s1", name := "Alice", avatar := none,
    is_organizer := true, has_voted := true, vote := some "8",
    joined_at := 1, last_seen := 1 }

/-- Fixture participant of a different session s2 with a cast vote. -/
def wP2 : Participant :=
  { id := "p2", session_id := some "s2", name := "Bob", avatar := none,
    is_organizer := false, has_voted := true, vote := some "5",
    joined_at := 2, last_seen := 2 }

/-- Fixture session s1, revealed. -/
def wS1 : Session :=
  { id := "s1", room_code := "AAAAAA", name := "Sprint 1", organizer_id := "p1",
    current_story_id := none, votes_revealed := true, created_at := 0, updated_at := 0 }

/-- Fixture session s2, collecting. -/
def wS2 : Session :=
  { id := "s2", room_code := "BBBBBB", name := "Sprint 2", organizer_id := "p2",
    current_story_id := none, votes_revealed := false, created_at := 0, updated_at := 0 }

/-- Fixture store holding two sessions and one participant in each. -/
def wDb : DB :=
  { sessions := [wS1, wS2], participants := [wP1, wP2], stories := [] }

/-- Embedding of `VotingDeck.handleCardClick` (src/unnamed/part_000 lines
32-36): a card click issues the vote value only when the local client is not
the organizer and votes are not revealed. -/
def handleCardClick (isOrganizer revealed : Bool) (value : String) : Option String :=
  if !isOrganizer && !revealed then some value else none

/-- Composition of the deck gate with the store mutation: `handleCardClick`
feeds `onVote` = `PokerSession.handleVote`, which calls
`updateParticipantVote`; when the gate blocks, no request is issued and the
store is unchanged. -/
def castVote (isOrganizer revealed : Bool) (db : DB) (participantId value : String) : DB :=
  match handleCardClick isOrganizer revealed value with
  | some v => updateParticipantVote db participantId v
  | none => db

/-- Direction argument of `StoryManager.moveStory`. -/
inductive MoveDirection
| up
| down
deriving Repr, DecidableEq

/-- Model of JavaScript `Array.prototype.findIndex` on the story list: index
of the first story whose id matches, -1 when absent. -/
def findIndexJs : List Story → String → Int
  | [], _ => -1
  | st :: rest, sid =>
    if st.id = sid then 0
    else
      let r := findIndexJs rest sid
      if r = -1 then -1 else r + 1

/-- Model of JavaScript array subscription `stories[i]`: `none` stands for
`undefined` (negative or out-of-range index). -/
def jsIndex (l : List Story) (i : Int) : Option Story :=
  if i < 0 then none else l[i.toNat]?

/-- Effect of `updateStory(id, { order_index: v })` on the story table: sets
`order_index` on every row whose id matches. -/
def updateStoryOrderIndex (l : List Story) (storyId : String) (v : Int) : List Story :=
  l.map fun st => if st.id = storyId then { st with order_index := v } else st

/-- Embedding of `StoryManager.moveStory` (StoryManager.tsx lines 107-128)
acting on the locally held ordered story list: a no-op when the story is
first and moved up, or last and moved down; otherwise two update requests
swapping the story's order-index value with its neighbour's.  The `none`
result models the TypeError raised when the id is absent and the guard does
not trip (`stories[-1]` is `undefined`). -/
def moveStory (stories : List Story) (storyId : String) (direction : MoveDirection) :
    Option (List Story) :=
  let index := findIndexJs stories storyId
  if (direction = MoveDirection.up ∧ index = 0) ∨
      (direction = MoveDirection.down ∧ index = (stories.length : Int) - 1) then
    some stories
  else
    (jsIndex stories index).bind fun currentStory =>
      let targetIndex := if direction = MoveDirection.up then index - 1 else index + 1
      (jsIndex stories targetIndex).bind fun targetStory =>
        some (updateStoryOrderIndex
          (updateStoryOrderIndex stories currentStory.id targetStory.order_index)
          targetStory.id currentStory.order_index)

/-- Fixture story A of session s1 at order index 0. -/
def wStA : Story :=
  { id := "t1", session_id := some "s1", title := "A", description := none,
    status := StoryStatus.pending, order_index := 0, created_at := 0 }

/-- Fixture story B of session s1 at order index 1. -/
def wStB : Story :=
  { id := "t2", session_id := some "s1", title := "B", description := none,
    status := StoryStatus.pending, order_index := 1, created_at := 1 }

/-- Base-36 digit as printed by JavaScript `Number.prototype.toString(36)`:
0-9 then a-z. -/
def base36Digit (d : Nat) : Char :=
  if d < 10 then Char.ofNat (48 + d) else Char.ofNat (87 + d)

/-- Model of `x.toString(36)` for a double x in [0,1): `"0"` when the value
is zero, otherwise `"0."` followed by the finite shortest base-36 digit
expansion of the fraction, abstracted as the digit list `frac`. -/
def jsToString36 (frac : List Nat) : String :=
  if frac.isEmpty then "0"
  else String.mk ('0' :: '.' :: frac.map base36Digit)

/-- Model of JavaScript `String.prototype.substr(start, len)`. -/
def jsSubstr (s : String) (start len : Nat) : String :=
  String.mk ((s.data.drop start).take len)

/-- Room code computed by `createSession` (supabase.ts line 115):
`Math.random().toString(36).substr(2, 6).toUpperCase()` for a random value
whose fractional base-36 expansion is `frac`. -/
def roomCodeOf (frac : List Nat) : String :=
  jsToUpper (jsSubstr (jsToString36 frac) 2 6)

/-- Error channel of `createSession`: which of the three sequential store
requests threw. -/
inductive CreateError
| participantInsertFailed
| sessionInsertFailed
| organizerUpdateFailed
deriving Repr, DecidableEq

/-- Failure injection for the three store requests of `createSession`. -/
structure StoreOracle where
  insertParticipantOk : Bool
  insertSessionOk : Bool
  updateParticipantOk : Bool
deriving Repr, DecidableEq

/-- Organizer row as first inserted by `createSession`: the session reference
is null and no vote is set. -/
def organizerRow (pid orgName : String) (av : Option String) (now : Nat) : Participant :=
  { id := pid, session_id := none, name := orgName, avatar := av,
    is_organizer := true, has_voted := false, vote := none,
    joined_at := now, last_seen := now }

/-- Session row as inserted by `createSession`: references the organizer and
starts collecting with no current story. -/
def sessionRow (sid : String) (frac : List Nat) (name pid : String) (now : Nat) : Session :=
  { id := sid, room_code := roomCodeOf frac, name := name, organizer_id := pid,
    current_story_id := none, votes_revealed := false,
    created_at := now, updated_at := now }

/-- Embedding of `createSession` (supabase.ts lines 104-182).  Fresh row ids
(`pid`, `sid`) and the random fraction driving the room code are passed
explicitly; `o` injects the outcome of each of the three sequential store
requests.  Returns the store as left behind together with the result or the
error thrown. -/
def createSession (db : DB) (o : StoreOracle) (pid sid : String)
    (frac : List Nat) (name organizerName : String)
    (organizerAvatar : Option String) (now : Nat) :
    DB × Except CreateError (Session × Participant) :=
  if !o.insertParticipantOk then
    (db, Except.error CreateError.participantInsertFailed)
  else
    let organizer := organizerRow pid organizerName organizerAvatar now
    let db1 : DB := { db with participants := db.participants ++ [organizer] }
    if !o.insertSessionOk then
      (db1, Except.error CreateError.sessionInsertFailed)
    else
      let session := sessionRow sid frac name pid now
      let db2 : DB := { db1 with sessions := db1.sessions ++ [session] }
      if !o.updateParticipantOk then
        (db2, Except.error CreateError.organizerUpdateFailed)
      else
        let db3 : DB := { db2 with participants := db2.participants.map fun p =>
          if p.id = pid then { p with session_id := some sid } else p }
        (db3, Except.ok (session, { organizer with session_id := some sid }))

/-- Error channel of `joinSession`. -/
inductive JoinError
| sessionNotFound
| nameConflict
deriving Repr, DecidableEq

/-- Embedding of `joinSession` (supabase.ts lines 184-255): session looked up
by upper-cased room code via `.single()`; the duplicate-name check also uses
`.single()`, so "a participant exists" means the check query matched exactly
one row — with zero or several matches `.single()` errors with `PGRST116`,
which the code tolerates, leaving `existingParticipant` null; in that case a
new non-organizer participant row is inserted. -/
def joinSession (db : DB) (newPid : String) (roomCode participantName : String)
    (participantAvatar : Option String) (now : Nat) :
    DB × Except JoinError (Session × Participant) :=
  match singleRow (db.sessions.filter fun s => s.room_code = jsToUpper roomCode) with
  | none => (db, Except.error JoinError.sessionNotFound)
  | some session =>
    match singleRow (db.participants.filter fun p =>
        p.session_id = some session.id ∧ p.name = participantName) with
    | some _ => (db, Except.error JoinError.nameConflict)
    | none =>
      let participant : Participant :=
        { id := newPid, session_id := some session.id, name := participantName,
          avatar := participantAvatar, is_organizer := false, has_voted := false,
          vote := none, joined_at := now, last_seen := now }
      ({ db with participants := db.participants ++ [participant] },
        Except.ok (session, participant))

/-- Join-time order used by the participants query (`.order("joined_at")`). -/
def byJoinedAt (a b : Participant) : Prop := a.joined_at ≤ b.joined_at

instance : DecidableRel byJoinedAt :=
  fun a b => inferInstanceAs (Decidable (a.joined_at ≤ b.joined_at))

instance : IsTotal Participant byJoinedAt := ⟨fun a b => Nat.le_total a.joined_at b.joined_at⟩

instance : IsTrans Participant byJoinedAt := ⟨fun _ _ _ h h2 => Nat.le_trans h h2⟩

/-- Order-index order used by the stories query (`.order("order_index")`). -/
def byOrderIndex (a b : Story) : Prop := a.order_index ≤ b.order_index

instance : DecidableRel byOrderIndex :=
  fun a b => inferInstanceAs (Decidable (a.order_index ≤ b.order_index))

instance : IsTotal Story byOrderIndex := ⟨fun a b => Int.le_total a.order_index b.order_index⟩

instance : IsTrans Story byOrderIndex := ⟨fun _ _ _ h h2 => Int.le_trans h h2⟩

/-- Descending order-index order used by `addStory`'s limit-1 query. -/
def byOrderIndexDesc (a b : Story) : Prop := b.order_index ≤ a.order_index

instance : DecidableRel byOrderIndexDesc :=
  fun a b => inferInstanceAs (Decidable (b.order_index ≤ a.order_index))

/-- Result of `getSessionData`: the three fetches as the code returns them
(`sessionResult.data`, `participantsResult.data || []`,
`storiesResult.data || []`). -/
structure SessionData where
  session : Option Session
  participants : List Participant
  stories : List Story
deriving Repr, DecidableEq

/-- Embedding of `getSessionData` (supabase.ts lines 257-277): three queries
issued together; errors are discarded (`.data` for the session, `|| []` for
the collections), so a missing session yields a null session, not a
failure. -/
def getSessionData (db : DB) (sessionId : String) : SessionData :=
  { session := singleRow (db.sessions.filter fun s => s.id = sessionId),
    participants := List.insertionSort byJoinedAt
      (db.participants.filter fun p => p.session_id = some sessionId),
    stories := List.insertionSort byOrderIndex
      (db.stories.filter fun st => st.session_id = some sessionId) }

/-- Error of the spec's `attach` contract. -/
inductive AttachError
| notFound
deriving Repr, DecidableEq

/-- Modelled from the spec: "attach(sessionId): performs one atomic fetch of
session row, full participant set (ordered by join time), and full story set
(ordered by order index); ... Fails with `NotFoundError` if the session row
does not exist."  Stated here only to compare the spec's failure contract
with the code's `getSessionData`, which has no failure outcome. -/
def attachSpec (db : DB) (sessionId : String) : Except AttachError SessionData :=
  match singleRow (db.sessions.filter fun s => s.id = sessionId) with
  | none => Except.error AttachError.notFound
  | some s =>
    Except.ok
      { session := some s,
        participants := List.insertionSort byJoinedAt
          (db.participants.filter fun p => p.session_id = some sessionId),
        stories := List.insertionSort byOrderIndex
          (db.stories.filter fun st => st.session_id = some sessionId) }

/-- Partial story update as passed to `updateStory` (`Partial<Story>`). -/
structure StoryUpdates where
  title : Option String := none
  description : Option (Option String) := none
  status : Option StoryStatus := none
  order_index : Option Int := none
deriving Repr

/-- Embedding of `updateStory` (supabase.ts lines 346-353). -/
def updateStory (db : DB) (storyId : String) (u : StoryUpdates) : DB :=
  { db with stories := db.stories.map fun st =>
      if st.id = storyId then
        { st with
          title := u.title.getD st.title,
          description := u.description.getD st.description,
          status := u.status.getD st.status,
          order_index := u.order_index.getD st.order_index }
      else st }

/-- Embedding of `addStory` (supabase.ts lines 316-344): next order index is
the session's highest existing one (descending order, limit 1) plus one, or 0
for the first story. -/
def addStory (db : DB) (newStoryId sessionId title : String)
    (descr : Option String) (now : Nat) : DB × Story :=
  let existing := List.insertionSort byOrderIndexDesc
    (db.stories.filter fun st => st.session_id = some sessionId)
  let nextOrderIndex : Int :=
    match existing with
    | [] => 0
    | st :: _ => st.order_index + 1
  let story : Story :=
    { id := newStoryId, session_id := some sessionId, title := title,
      description := descr, status := StoryStatus.pending,
      order_index := nextOrderIndex, created_at := now }
  ({ db with stories := db.stories ++ [story] }, story)

/-- Embedding of `deleteStory` (supabase.ts lines 355-359). -/
def deleteStory (db : DB) (storyId : String) : DB :=
  { db with stories := db.stories.filter fun st => ¬(st.id = storyId) }

/-- Embedding of `updateCurrentStory` (supabase.ts lines 361-371). -/
def updateCurrentStory (db : DB) (sessionId storyId : String) : DB :=
  { db with sessions := db.sessions.map fun s =>
      if s.id = sessionId then { s with current_story_id := some storyId } else s }

/-- Embedding of `removeParticipant` (supabase.ts lines 373-380). -/
def removeParticipant (db : DB) (participantId : String) : DB :=
  { db with participants := db.participants.filter fun p => ¬(p.id = participantId) }

/-- Embedding of `updateParticipantLastSeen` (supabase.ts lines 382-389). -/
def updateParticipantLastSeen (db : DB) (participantId : String) (now : Nat) : DB :=
  { db with participants := db.participants.map fun p =>
      if p.id = participantId then { p with last_seen := now } else p }

/-- Participant-level consistency: a set has-voted flag implies a vote value
is present. -/
def VoteConsistent (p : Participant) : Prop := p.has_voted = true → p.vote ≠ none

/-- Store-level invariant: every participant row is vote-consistent. -/
def VotesConsistent (db : DB) : Prop := ∀ p ∈ db.participants, VoteConsistent p

/-- Fixture session s3 for the duplicate-name corner. -/
def wS3 : Session :=
  { id := "s3", room_code := "CCCCCC", name := "Sprint 3", organizer_id := "p3",
    current_story_id := none, votes_revealed := false, created_at := 0, updated_at := 0 }

/-- Fixture organizer of s3, named Carol. -/
def wP3 : Participant :=
  { id := "p3", session_id := some "s3", name := "Carol", avatar := none,
    is_organizer := true, has_voted := false, vote := none,
    joined_at := 0, last_seen := 0 }

/-- Fixture second participant of s3, also named Carol. -/
def wP4 : Participant :=
  { id := "p4", session_id := some "s3", name := "Carol", avatar := none,
    is_organizer := false, has_voted := false, vote := none,
    joined_at := 1, last_seen := 1 }

/-- Fixture store where session s3 already holds two participants that share
the name "Carol". -/
def wDbDup : DB :=
  { sessions := [wS3], participants := [wP3, wP4], stories := [] }

/-- Decidability of the row-level vote invariant. -/
instance (p : Participant) : Decidable (VoteConsistent p) := by
  unfold VoteConsistent
  infer_instance

/-- Decidability of the store-level vote invariant. -/
instance (db : DB) : Decidable (VotesConsistent db) := by
  unfold VotesConsistent
  infer_instance

/-- C1: after `resetVotes db sid`, the session row with id `sid` has
`votes_revealed = false`, every participant of that session has
`has_voted = false` and `vote = null`, and every participant row of any other
session (or of no session) is returned unchanged at its original position. -/
theorem resetVotes_clears_session_and_votes (db : DB) (sid : String) :
    (∀ s ∈ (resetVotes db sid).sessions, s.id = sid → s.votes_revealed = false) ∧
    (∀ p ∈ (resetVotes db sid).participants, p.session_id = some sid →
      p.has_voted = false ∧ p.vote = none) ∧
    (∀ (i : Nat) (p : Participant), db.participants[i]? = some p →
      p.session_id ≠ some sid →
      (resetVotes db sid).participants[i]? = some p) := by
  refine ⟨?_, ?_, ?_⟩
  · intro s hs hid
    simp only [resetVotes, List.mem_map] at hs
    obtain ⟨a, -, rfl⟩ := hs
    by_cases h : a.id = sid
    · simp [h]
    · simp only [if_neg h] at hid ⊢
      exact absurd hid h
  · intro p hp hsid
    simp only [resetVotes, List.mem_map] at hp
    obtain ⟨a, -, rfl⟩ := hp
    by_cases h : a.session_id = some sid
    · simp [h]
    · simp only [if_neg h] at hsid ⊢
      exact absurd hsid h
  · intro i p hp hne
    simp [resetVotes, List.getElem?_map, hp, if_neg hne]

/-- Witness for C1: on the concrete fixture store, resetting session s1 turns
off its reveal flag, clears Alice's vote, and leaves Bob (who belongs to
session s2) untouched at position 1. -/
theorem resetVotes_clears_session_and_votes_witness :
    ({ wS1 with votes_revealed := false } : Session).votes_revealed = false ∧
    (({ wP1 with vote := none, has_voted := false } : Participant).has_voted = false ∧
      ({ wP1 with vote := none, has_voted := false } : Participant).vote = none) ∧
    (resetVotes wDb "s1").participants[1]? = some wP2 := by
  refine ⟨?_, ?_, ?_⟩
  · exact (resetVotes_clears_session_and_votes wDb "s1").1
      { wS1 with votes_revealed := false } (by decide) (by decide)
  · exact (resetVotes_clears_session_and_votes wDb "s1").2.1
      { wP1 with vote := none, has_voted := false } (by decide) (by decide)
  · exact (resetVotes_clears_session_and_votes wDb "s1").2.2 1 wP2 (by decide) (by decide)

/-- C8: revealVotes is idempotent (applying it twice equals applying it once),
the matching session row ends with `votes_revealed = true`, and revealing a
store whose matching session rows are already revealed changes nothing. -/
theorem revealVotes_idempotent :
    (∀ (db : DB) (sid : String),
      revealVotes (revealVotes db sid) sid = revealVotes db sid) ∧
    (∀ (db : DB) (sid : String), ∀ s ∈ (revealVotes db sid).sessions,
      s.id = sid → s.votes_revealed = true) ∧
    (∀ (db : DB) (sid : String),
      (∀ s ∈ db.sessions, s.id = sid → s.votes_revealed = true) →
      revealVotes db sid = db) := by
  refine ⟨?_, ?_, ?_⟩
  · intro db sid
    simp only [revealVotes, List.map_map]
    congr 1
    apply List.map_congr_left
    intro a _
    by_cases h : a.id = sid <;> simp [Function.comp, h]
  · intro db sid s hs hid
    simp only [revealVotes, List.mem_map] at hs
    obtain ⟨a, -, rfl⟩ := hs
    by_cases h : a.id = sid
    · simp [h]
    · simp only [if_neg h] at hid ⊢
      exact absurd hid h
  · intro db sid hall
    have h : db.sessions.map
        (fun s => if s.id = sid then { s with votes_revealed := true } else s)
        = db.sessions := by
      conv_rhs => rw [← List.map_id db.sessions]
      apply List.map_congr_left
      intro a ha
      by_cases hid : a.id = sid
      · have hv := hall a ha hid
        cases a
        simp_all
      · simp [hid]
    unfold revealVotes
    rw [h]

/-- Witness for C8: on the fixture store, the session updated by a reveal
carries `votes_revealed = true`, and revealing session s1 (already revealed)
leaves the whole store unchanged. -/
theorem revealVotes_idempotent_witness :
    ({ wS2 with votes_revealed := true } : Session).votes_revealed = true ∧
    revealVotes wDb "s1" = wDb := by
  constructor
  · exact revealVotes_idempotent.2.1 wDb "s2"
      { wS2 with votes_revealed := true } (by decide) (by decide)
  · exact revealVotes_idempotent.2.2 wDb "s1" (by decide)

/-- C10: revealVotes keeps the participant and story tables identical, keeps
every session row at its position with id, room code, name, organizer
reference, current-story reference and timestamps unchanged, sets
`votes_revealed` to true exactly on the matching row, and returns every
non-matching session row entirely unchanged. -/
theorem revealVotes_frame (db : DB) (sid : String) :
    (revealVotes db sid).participants = db.participants ∧
    (revealVotes db sid).stories = db.stories ∧
    (revealVotes db sid).sessions.length = db.sessions.length ∧
    (∀ (i : Nat) (s : Session), db.sessions[i]? = some s →
      ∃ s', (revealVotes db sid).sessions[i]? = some s' ∧
        s'.id = s.id ∧ s'.room_code = s.room_code ∧ s'.name = s.name ∧
        s'.organizer_id = s.organizer_id ∧
        s'.current_story_id = s.current_story_id ∧
        s'.created_at = s.created_at ∧ s'.updated_at = s.updated_at ∧
        s'.votes_revealed = (if s.id = sid then true else s.votes_revealed) ∧
        (s.id ≠ sid → s' = s)) := by
  refine ⟨rfl, rfl, by simp [revealVotes], ?_⟩
  intro i s hs
  refine ⟨if s.id = sid then { s with votes_revealed := true } else s, ?_, ?_⟩
  · simp [revealVotes, List.getElem?_map, hs]
  · by_cases h : s.id = sid <;> simp [h]

/-- Witness for C10: revealing session s2 of the fixture store keeps the row
of session s2 at position 1 with every field but the reveal flag unchanged. -/
theorem revealVotes_frame_witness :
    ∃ s', (revealVotes wDb "s2").sessions[1]? = some s' ∧
      s'.id = wS2.id ∧ s'.room_code = wS2.room_code ∧ s'.name = wS2.name ∧
      s'.organizer_id = wS2.organizer_id ∧
      s'.current_story_id = wS2.current_story_id ∧
      s'.created_at = wS2.created_at ∧ s'.updated_at = wS2.updated_at ∧
      s'.votes_revealed = (if wS2.id = "s2" then true else wS2.votes_revealed) ∧
      (wS2.id ≠ "s2" → s' = wS2) :=
  (revealVotes_frame wDb "s2").2.2.2 1 wS2 (by decide)

/-- C7: casting a vote is gated on the collecting state — with
`votes_revealed = true` no mutation is issued and the store is unchanged —
and when it runs it sets the matching participant's vote to the given value
(an arbitrary string) and the has-voted flag to true, leaving every other
participant row unchanged at its position. -/
theorem castVote_gate_and_effect :
    (∀ (o r : Bool) (db : DB) (pid v : String), r = true →
      castVote o r db pid v = db) ∧
    (∀ (db : DB) (pid v : String), ∀ p ∈ (castVote false false db pid v).participants,
      p.id = pid → p.vote = some v ∧ p.has_voted = true) ∧
    (∀ (db : DB) (pid v : String) (i : Nat) (p : Participant),
      db.participants[i]? = some p → p.id ≠ pid →
      (castVote false false db pid v).participants[i]? = some p) := by
  refine ⟨?_, ?_, ?_⟩
  · intro o r db pid v hr
    subst hr
    simp [castVote, handleCardClick]
  · intro db pid v p hp hid
    have he : castVote false false db pid v = updateParticipantVote db pid v := rfl
    rw [he] at hp
    simp only [updateParticipantVote, List.mem_map] at hp
    obtain ⟨a, -, rfl⟩ := hp
    by_cases h : a.id = pid
    · simp [h]
    · simp only [if_neg h] at hid ⊢
      exact absurd hid h
  · intro db pid v i p hp hne
    have he : castVote false false db pid v = updateParticipantVote db pid v := rfl
    rw [he]
    simp [updateParticipantVote, List.getElem?_map, hp, if_neg hne]

/-- Witness for C7: on the fixture store, a revealed deck issues nothing; a
collecting deck vote "13" by Bob sets Bob's row and leaves Alice's row at
position 0 unchanged. -/
theorem castVote_gate_and_effect_witness :
    castVote false true wDb "p2" "13" = wDb ∧
    (({ wP2 with vote := some "13", has_voted := true } : Participant).vote = some "13" ∧
      ({ wP2 with vote := some "13", has_voted := true } : Participant).has_voted = true) ∧
    (castVote false false wDb "p2" "13").participants[0]? = some wP1 := by
  refine ⟨?_, ?_, ?_⟩
  · exact castVote_gate_and_effect.1 false true wDb "p2" "13" rfl
  · exact castVote_gate_and_effect.2.1 wDb "p2" "13"
      { wP2 with vote := some "13", has_voted := true } (by decide) (by decide)
  · exact castVote_gate_and_effect.2.2 wDb "p2" "13" 0 wP1 (by decide) (by decide)

/-- JavaScript `findIndex` on a list whose prefix misses the wanted id finds
the story right after the prefix. -/
lemma findIndexJs_append (A : List Story) (a : Story) (C : List Story)
    (h : ∀ x ∈ A, x.id ≠ a.id) :
    findIndexJs (A ++ a :: C) a.id = (A.length : Int) := by
  induction A with
  | nil => simp [findIndexJs]
  | cons x A ih =>
    have hx : x.id ≠ a.id := h x (List.mem_cons_self x A)
    have hr := ih fun y hy => h y (List.mem_cons_of_mem x hy)
    have hne : (A.length : Int) ≠ -1 := by omega
    simp only [List.cons_append, findIndexJs, List.append_eq, if_neg hx, hr,
      if_neg hne, List.length_cons]
    push_cast
    ring

/-- Subscripting right after a prefix returns the story sitting there. -/
lemma jsIndex_append_cons (A : List Story) (a : Story) (C : List Story) :
    jsIndex (A ++ a :: C) (A.length : Int) = some a := by
  have h0 : ¬((A.length : Int) < 0) := by omega
  simp only [jsIndex, if_neg h0, Int.toNat_natCast]
  rw [List.getElem?_append_right (Nat.le_refl A.length)]
  simp

/-- An order-index update whose id matches no row leaves the rows unchanged. -/
lemma updateStoryOrderIndex_of_forall_ne (l : List Story) (sid : String) (v : Int)
    (h : ∀ x ∈ l, x.id ≠ sid) :
    updateStoryOrderIndex l sid v = l := by
  conv_rhs => rw [← List.map_id l]
  exact List.map_congr_left fun x hx => by simp [h x hx]

/-- Updating distributes over list append. -/
lemma updateStoryOrderIndex_append (l₁ l₂ : List Story) (sid : String) (v : Int) :
    updateStoryOrderIndex (l₁ ++ l₂) sid v
      = updateStoryOrderIndex l₁ sid v ++ updateStoryOrderIndex l₂ sid v :=
  List.map_append _ _ _

/-- Updating a cons cell. -/
lemma updateStoryOrderIndex_cons (x : Story) (l : List Story) (sid : String) (v : Int) :
    updateStoryOrderIndex (x :: l) sid v
      = (if x.id = sid then { x with order_index := v } else x)
          :: updateStoryOrderIndex l sid v :=
  rfl

/-- Unpacking distinctness of story ids around two adjacent stories. -/
lemma nodup_ids_extract (A : List Story) (b a : Story) (C : List Story)
    (hnd : ((A ++ b :: a :: C).map Story.id).Nodup) :
    (∀ x ∈ A, x.id ≠ a.id) ∧ (∀ x ∈ A, x.id ≠ b.id) ∧ b.id ≠ a.id ∧
    (∀ x ∈ C, x.id ≠ a.id) ∧ (∀ x ∈ C, x.id ≠ b.id) := by
  rw [List.map_append, List.nodup_append] at hnd
  obtain ⟨-, hR, hdisj⟩ := hnd
  simp only [List.map_cons] at hR hdisj
  obtain ⟨hbmem, hR2⟩ := List.nodup_cons.mp hR
  obtain ⟨hamem, -⟩ := List.nodup_cons.mp hR2
  refine ⟨?_, ?_, ?_, ?_, ?_⟩
  · intro x hx he
    exact hdisj (List.mem_map.mpr ⟨x, hx, he⟩) (by simp)
  · intro x hx he
    exact hdisj (List.mem_map.mpr ⟨x, hx, he⟩) (by simp)
  · intro he
    exact hbmem (by simp [he])
  · intro x hx he
    exact hamem (List.mem_map.mpr ⟨x, hx, he⟩)
  · intro x hx he
    exact hbmem (List.mem_cons_of_mem _ (List.mem_map.mpr ⟨x, hx, he⟩))

/-- Moving a story up swaps its order index with its left neighbour's. -/
lemma moveStory_up_swap (A : List Story) (b a : Story) (C : List Story)
    (hnd : ((A ++ b :: a :: C).map Story.id).Nodup) :
    moveStory (A ++ b :: a :: C) a.id MoveDirection.up
      = some (A ++ { b with order_index := a.order_index } ::
              { a with order_index := b.order_index } :: C) := by
  obtain ⟨hAa, hAb, hba, hCa, hCb⟩ := nodup_ids_extract A b a C hnd
  have hids : ∀ x ∈ A ++ [b], x.id ≠ a.id := by
    intro x hx
    rcases List.mem_append.mp hx with h | h
    · exact hAa x h
    · rw [List.mem_singleton.mp h]
      exact hba
  have hidx : findIndexJs (A ++ b :: a :: C) a.id = (A.length : Int) + 1 := by
    have h2 := findIndexJs_append (A ++ [b]) a C hids
    rw [List.append_assoc] at h2
    simpa using h2
  have hcur : jsIndex (A ++ b :: a :: C) ((A.length : Int) + 1) = some a := by
    have h2 := jsIndex_append_cons (A ++ [b]) a C
    rw [List.append_assoc] at h2
    simpa using h2
  have htgt : jsIndex (A ++ b :: a :: C) ((A.length : Int) + 1 - 1) = some b := by
    have h2 := jsIndex_append_cons A b (a :: C)
    simpa using h2
  have hu1 : updateStoryOrderIndex (A ++ b :: a :: C) a.id b.order_index
      = A ++ b :: { a with order_index := b.order_index } :: C := by
    rw [updateStoryOrderIndex_append, updateStoryOrderIndex_cons,
      updateStoryOrderIndex_cons,
      updateStoryOrderIndex_of_forall_ne A _ _ hAa,
      updateStoryOrderIndex_of_forall_ne C _ _ hCa,
      if_neg hba, if_pos rfl]
  have hu2 : updateStoryOrderIndex
        (A ++ b :: { a with order_index := b.order_index } :: C) b.id a.order_index
      = A ++ { b with order_index := a.order_index } ::
          { a with order_index := b.order_index } :: C := by
    rw [updateStoryOrderIndex_append, updateStoryOrderIndex_cons,
      updateStoryOrderIndex_cons,
      updateStoryOrderIndex_of_forall_ne A _ _ hAb,
      updateStoryOrderIndex_of_forall_ne C _ _ hCb,
      if_pos rfl, if_neg fun hh => hba hh.symm]
  simp only [moveStory, hidx, hcur, Option.some_bind, if_true, htgt, hu1, hu2]
  split
  · rename_i h
    exfalso
    rcases h with ⟨-, h0⟩ | ⟨hd, -⟩
    · omega
    · exact MoveDirection.noConfusion hd
  · rfl

/-- Moving a story down swaps its order index with its right neighbour's. -/
lemma moveStory_down_swap (A : List Story) (a b : Story) (C : List Story)
    (hnd : ((A ++ a :: b :: C).map Story.id).Nodup) :
    moveStory (A ++ a :: b :: C) a.id MoveDirection.down
      = some (A ++ { a with order_index := b.order_index } ::
              { b with order_index := a.order_index } :: C) := by
  obtain ⟨hAb, hAa, hab, hCb, hCa⟩ := nodup_ids_extract A a b C hnd
  have hidx : findIndexJs (A ++ a :: b :: C) a.id = (A.length : Int) :=
    findIndexJs_append A a (b :: C) hAa
  have hcur : jsIndex (A ++ a :: b :: C) (A.length : Int) = some a :=
    jsIndex_append_cons A a (b :: C)
  have htgt : jsIndex (A ++ a :: b :: C) ((A.length : Int) + 1) = some b := by
    have h2 := jsIndex_append_cons (A ++ [a]) b C
    rw [List.append_assoc] at h2
    simpa using h2
  have hdu : (MoveDirection.down = MoveDirection.up) = False := by
    simp
  have hu1 : updateStoryOrderIndex (A ++ a :: b :: C) a.id b.order_index
      = A ++ { a with order_index := b.order_index } :: b :: C := by
    rw [updateStoryOrderIndex_append, updateStoryOrderIndex_cons,
      updateStoryOrderIndex_cons,
      updateStoryOrderIndex_of_forall_ne A _ _ hAa,
      updateStoryOrderIndex_of_forall_ne C _ _ hCa,
      if_pos rfl, if_neg fun hh => hab hh.symm]
  have hu2 : updateStoryOrderIndex
        (A ++ { a with order_index := b.order_index } :: b :: C) b.id a.order_index
      = A ++ { a with order_index := b.order_index } ::
          { b with order_index := a.order_index } :: C := by
    rw [updateStoryOrderIndex_append, updateStoryOrderIndex_cons,
      updateStoryOrderIndex_cons,
      updateStoryOrderIndex_of_forall_ne A _ _ hAb,
      updateStoryOrderIndex_of_forall_ne C _ _ hCb,
      if_pos rfl, if_neg fun hh => hab hh]
  simp only [moveStory, hidx, hcur, Option.some_bind, hdu, if_false, htgt, hu1, hu2]
  split
  · rename_i h
    exfalso
    rcases h with ⟨hd, -⟩ | ⟨-, h0⟩
    · exact hd
    · rw [List.length_append, List.length_cons, List.length_cons] at h0
      push_cast at h0
      omega
  · rfl

/-- C2: on the locally held ordered story list, moveStory is a no-op when the
story is first and moved up or last and moved down; otherwise, with distinct
story ids, it exchanges the order-index values of the story and its
neighbour (positions k-1 and k for an upward move of the story at position
k = length of the prefix plus one), leaving all other rows in place, and the
multiset of order-index values in use is unchanged. -/
theorem moveStory_noop_or_swaps :
    (∀ (a : Story) (rest : List Story),
      moveStory (a :: rest) a.id MoveDirection.up = some (a :: rest)) ∧
    (∀ (A : List Story) (a : Story), (∀ x ∈ A, x.id ≠ a.id) →
      moveStory (A ++ [a]) a.id MoveDirection.down = some (A ++ [a])) ∧
    (∀ (A : List Story) (b a : Story) (C : List Story),
      ((A ++ b :: a :: C).map Story.id).Nodup →
      moveStory (A ++ b :: a :: C) a.id MoveDirection.up
        = some (A ++ { b with order_index := a.order_index } ::
                { a with order_index := b.order_index } :: C) ∧
      ((A ++ { b with order_index := a.order_index } ::
          { a with order_index := b.order_index } :: C).map Story.order_index).Perm
        ((A ++ b :: a :: C).map Story.order_index)) ∧
    (∀ (A : List Story) (a b : Story) (C : List Story),
      ((A ++ a :: b :: C).map Story.id).Nodup →
      moveStory (A ++ a :: b :: C) a.id MoveDirection.down
        = some (A ++ { a with order_index := b.order_index } ::
                { b with order_index := a.order_index } :: C) ∧
      ((A ++ { a with order_index := b.order_index } ::
          { b with order_index := a.order_index } :: C).map Story.order_index).Perm
        ((A ++ a :: b :: C).map Story.order_index)) := by
  refine ⟨?_, ?_, ?_, ?_⟩
  · intro a rest
    have hidx : findIndexJs (a :: rest) a.id = 0 := by simp [findIndexJs]
    simp [moveStory, hidx]
  · intro A a h
    have hidx : findIndexJs (A ++ [a]) a.id = (A.length : Int) :=
      findIndexJs_append A a [] h
    simp [moveStory, hidx, List.length_append]
  · intro A b a C hnd
    refine ⟨moveStory_up_swap A b a C hnd, ?_⟩
    simp only [List.map_append, List.map_cons]
    exact List.Perm.append_left _ (List.Perm.swap _ _ _)
  · intro A a b C hnd
    refine ⟨moveStory_down_swap A a b C hnd, ?_⟩
    simp only [List.map_append, List.map_cons]
    exact List.Perm.append_left _ (List.Perm.swap _ _ _)

/-- Witness for C2: moving story B up in [A, B] swaps the two order indices
(B gets 0, A gets 1), keeps the multiset of indices, and moving story A up is
a no-op. -/
theorem moveStory_noop_or_swaps_witness :
    (moveStory [wStA, wStB] wStB.id MoveDirection.up
      = some [{ wStA with order_index := wStB.order_index },
              { wStB with order_index := wStA.order_index }] ∧
      (([{ wStA with order_index := wStB.order_index },
          { wStB with order_index := wStA.order_index }]).map Story.order_index).Perm
        (([wStA, wStB]).map Story.order_index)) ∧
    moveStory [wStA, wStB] wStA.id MoveDirection.up = some [wStA, wStB] := by
  constructor
  · exact moveStory_noop_or_swaps.2.2.1 [] wStA wStB [] (by decide)
  · exact moveStory_noop_or_swaps.1 wStA [wStB]

/-- Counterexample for C3: in a store where session s3 already holds two
participants named "Carol" — a state the schema admits, there being no
uniqueness constraint on (session_id, name), and which concurrent joins can
produce — joining as "Carol" does NOT fail: the single-row existence check
errors softly (`PGRST116`) on the duplicate pair, the error code is
tolerated, and a third "Carol" row is inserted. -/
theorem joinSession_inserts_despite_duplicate_names :
    (∃ p ∈ wDbDup.participants, p.session_id = some "s3" ∧ p.name = "Carol") ∧
    (joinSession wDbDup "p5" "cccccc" "Carol" none 7).2
      = Except.ok (wS3,
          { id := "p5", session_id := some "s3", name := "Carol", avatar := none,
            is_organizer := false, has_voted := false, vote := none,
            joined_at := 7, last_seen := 7 }) ∧
    (joinSession wDbDup "p5" "cccccc" "Carol" none 7).1.participants.length
      = wDbDup.participants.length + 1 := by
  refine ⟨by decide, rfl, by decide⟩

/-- C3 amended: when exactly one participant of the session bears the
requested name (the situation every sequential history produces, the join
path itself keeping names unique), joinSession fails with the name-conflict
error and returns the store unchanged: no participant row is created. -/
theorem joinSession_name_conflict (db : DB) (newPid roomCode participantName : String)
    (av : Option String) (now : Nat) (s : Session)
    (hs : singleRow (db.sessions.filter fun x => x.room_code = jsToUpper roomCode)
      = some s)
    (h1 : (db.participants.filter fun p =>
        p.session_id = some s.id ∧ p.name = participantName).length = 1) :
    joinSession db newPid roomCode participantName av now
      = (db, Except.error JoinError.nameConflict) := by
  obtain ⟨x, hx⟩ : ∃ x, (db.participants.filter fun p =>
      p.session_id = some s.id ∧ p.name = participantName) = [x] :=
    List.length_eq_one.mp h1
  simp only [joinSession, hs, hx]
  rfl

/-- Witness for C3 (amended): joining the fixture store's session s1 (room
"AAAAAA", entered lower-case) under the already-taken name "Alice" fails
with the name-conflict error and leaves the store unchanged. -/
theorem joinSession_name_conflict_witness :
    joinSession wDb "p9" "aaaaaa" "Alice" none 5
      = (wDb, Except.error JoinError.nameConflict) :=
  joinSession_name_conflict wDb "p9" "aaaaaa" "Alice" none 5 wS1
    (by decide) (by decide)

/-- Counterexample for C4: fetching a session id absent from the store does
not fail: `getSessionData` returns normally with a null session, while the
spec's attach contract demands a NotFoundError failure. -/
theorem getSessionData_missing_session_returns_null :
    getSessionData wDb "zzz"
      = { session := none, participants := [], stories := [] } ∧
    attachSpec wDb "zzz" = Except.error AttachError.notFound := by
  constructor <;> rfl

/-- C4 amended: `getSessionData` performs the three fetches — the session row
via a single-row query, the session's full participant set sorted by join
time, its full story set sorted by order index — but a missing session row
produces no failure: the returned session is simply null (the caller's null
dereference is what the component catches and renders as not-found). -/
theorem getSessionData_fetches_ordered (db : DB) (sid : String) :
    (getSessionData db sid).participants.Perm
      (db.participants.filter fun p => p.session_id = some sid) ∧
    List.Sorted byJoinedAt (getSessionData db sid).participants ∧
    (getSessionData db sid).stories.Perm
      (db.stories.filter fun st => st.session_id = some sid) ∧
    List.Sorted byOrderIndex (getSessionData db sid).stories ∧
    ((∀ s ∈ db.sessions, s.id ≠ sid) → (getSessionData db sid).session = none) ∧
    (∀ s : Session, db.sessions.filter (fun x => x.id = sid) = [s] →
      (getSessionData db sid).session = some s) := by
  refine ⟨List.perm_insertionSort _ _, List.sorted_insertionSort _ _,
    List.perm_insertionSort _ _, List.sorted_insertionSort _ _, ?_, ?_⟩
  · intro h
    have hnil : db.sessions.filter (fun s => s.id = sid) = [] :=
      List.filter_eq_nil_iff.mpr fun a ha => by simp [h a ha]
    simp [getSessionData, hnil, singleRow]
  · intro s hs
    simp [getSessionData, hs, singleRow]

/-- Witness for C4 (amended): on the fixture store, fetching a missing id
yields a null session without failing, and fetching s1 yields its row. -/
theorem getSessionData_fetches_ordered_witness :
    (getSessionData wDb "zz2").session = none ∧
    (getSessionData wDb "s1").session = some wS1 := by
  constructor
  · exact (getSessionData_fetches_ordered wDb "zz2").2.2.2.2.1 (by decide)
  · exact (getSessionData_fetches_ordered wDb "s1").2.2.2.2.2 wS1 (by decide)

/-- C5: createSession creates the organizer participant first, with a null
session reference; when the session insert fails the error is surfaced and
the store keeps the orphan organizer row with no new session row; when the
final organizer patch fails the error is surfaced and the orphan keeps its
null session reference beside the already-created session row (no cleanup);
on full success the session row references the organizer and the organizer
row is patched with the session id. -/
theorem createSession_order_and_orphans (db : DB) (pid sid : String)
    (frac : List Nat) (nm onm : String) (av : Option String) (now : Nat)
    (hfresh : ∀ p ∈ db.participants, p.id ≠ pid) :
    createSession db ⟨true, false, true⟩ pid sid frac nm onm av now
      = ({ db with participants := db.participants ++ [organizerRow pid onm av now] },
          Except.error CreateError.sessionInsertFailed) ∧
    createSession db ⟨true, true, false⟩ pid sid frac nm onm av now
      = ({ db with
            sessions := db.sessions ++ [sessionRow sid frac nm pid now],
            participants := db.participants ++ [organizerRow pid onm av now] },
          Except.error CreateError.organizerUpdateFailed) ∧
    createSession db ⟨true, true, true⟩ pid sid frac nm onm av now
      = ({ db with
            sessions := db.sessions ++ [sessionRow sid frac nm pid now],
            participants := db.participants ++
              [{ organizerRow pid onm av now with session_id := some sid }] },
          Except.ok (sessionRow sid frac nm pid now,
            { organizerRow pid onm av now with session_id := some sid })) ∧
    (organizerRow pid onm av now).session_id = none ∧
    (sessionRow sid frac nm pid now).organizer_id = pid := by
  refine ⟨rfl, rfl, ?_, rfl, rfl⟩
  have hmap : db.participants.map
      (fun p => if p.id = pid then { p with session_id := some sid } else p)
      = db.participants := by
    conv_rhs => rw [← List.map_id db.participants]
    exact List.map_congr_left fun x hx => by simp [hfresh x hx]
  have he : createSession db ⟨true, true, true⟩ pid sid frac nm onm av now
      = ({ db with
            sessions := db.sessions ++ [sessionRow sid frac nm pid now],
            participants := (db.participants ++ [organizerRow pid onm av now]).map
              (fun p => if p.id = pid then { p with session_id := some sid } else p) },
          Except.ok (sessionRow sid frac nm pid now,
            { organizerRow pid onm av now with session_id := some sid })) := rfl
  rw [he, List.map_append, hmap]
  simp [organizerRow]

/-- Witness for C5: creating a session against the fixture store with the
session insert failing surfaces the failure and leaves the orphan organizer
row behind. -/
theorem createSession_order_and_orphans_witness :
    createSession wDb ⟨true, false, true⟩ "p9" "s9" [1, 2, 3, 4, 5, 6]
        "Sprint 9" "Dana" none 9
      = ({ wDb with participants := wDb.participants ++ [organizerRow "p9" "Dana" none 9] },
          Except.error CreateError.sessionInsertFailed) :=
  (createSession_order_and_orphans wDb "p9" "s9" [1, 2, 3, 4, 5, 6]
    "Sprint 9" "Dana" none 9 (by decide)).1

/-- Counterexample for C6: Math.random() can return 0.5, which prints as
"0.i" in base 36, so substr(2, 6) keeps a single character and the allocated
room code is "I" — one character long, not six; a successful createSession
run stores that code. -/
theorem roomCode_shorter_than_six :
    roomCodeOf [18] = "I" ∧ (roomCodeOf [18]).length ≠ 6 ∧
    (createSession wDb ⟨true, true, true⟩ "p9" "s9" [18] "Sprint 9" "Dana"
        none 9).1.sessions
      = wDb.sessions ++ [sessionRow "s9" [18] "Sprint 9" "p9" 9] ∧
    (sessionRow "s9" [18] "Sprint 9" "p9" 9).room_code = "I" := by
  refine ⟨?_, ?_, ?_, ?_⟩ <;> decide

/-- Digits printed for values below 36 are uppercase alphanumeric once
upper-cased. -/
lemma base36Digit_toUpper_alnum : ∀ d < 36,
    ('0' ≤ (base36Digit d).toUpper ∧ (base36Digit d).toUpper ≤ '9') ∨
    ('A' ≤ (base36Digit d).toUpper ∧ (base36Digit d).toUpper ≤ 'Z') := by
  decide

/-- C6 amended: the allocated room code consists of the first min(n, 6)
fractional base-36 digits of the random value (n the length of its printed
expansion), upper-cased: every character is uppercase alphanumeric, the code
is at most six characters, and it reaches six exactly when the expansion has
at least six digits. -/
theorem roomCode_upper_alnum_and_length (frac : List Nat) (h : ∀ d ∈ frac, d < 36) :
    (roomCodeOf frac).length = min frac.length 6 ∧
    ∀ c ∈ (roomCodeOf frac).data,
      ('0' ≤ c ∧ c ≤ '9') ∨ ('A' ≤ c ∧ c ≤ 'Z') := by
  cases frac with
  | nil =>
    refine ⟨rfl, ?_⟩
    intro c hc
    simp [roomCodeOf, jsToUpper, jsSubstr, jsToString36] at hc
  | cons d ds =>
    have hdata : (roomCodeOf (d :: ds)).data
        = (((d :: ds).map base36Digit).take 6).map Char.toUpper := by
      simp [roomCodeOf, jsToUpper, jsSubstr, jsToString36]
    constructor
    · have hlen : (roomCodeOf (d :: ds)).length = (roomCodeOf (d :: ds)).data.length := rfl
      rw [hlen, hdata]
      simp only [List.length_map, List.length_take, List.length_cons]
      omega
    · intro c hc
      rw [hdata] at hc
      obtain ⟨c0, hc0, rfl⟩ := List.mem_map.mp hc
      have hc1 : c0 ∈ (d :: ds).map base36Digit := List.mem_of_mem_take hc0
      obtain ⟨d0, hd0, rfl⟩ := List.mem_map.mp hc1
      exact base36Digit_toUpper_alnum d0 (h d0 hd0)

/-- Witness for C6 (amended): a seven-digit expansion yields a six-character
code made of uppercase alphanumerics. -/
theorem roomCode_upper_alnum_and_length_witness :
    (roomCodeOf [10, 11, 12, 13, 14, 15, 16]).length = min 7 6 ∧
    ∀ c ∈ (roomCodeOf [10, 11, 12, 13, 14, 15, 16]).data,
      ('0' ≤ c ∧ c ≤ '9') ∨ ('A' ≤ c ∧ c ≤ 'Z') :=
  ⟨(roomCode_upper_alnum_and_length [10, 11, 12, 13, 14, 15, 16] (by decide)).1,
    (roomCode_upper_alnum_and_length [10, 11, 12, 13, 14, 15, 16] (by decide)).2⟩

/-- Invariant transport along a row-wise map. -/
lemma votesConsistent_map (l : List Participant) (f : Participant → Participant)
    (hl : ∀ p ∈ l, VoteConsistent p)
    (h : ∀ p ∈ l, VoteConsistent p → VoteConsistent (f p)) :
    ∀ p ∈ l.map f, VoteConsistent p := by
  intro p hp
  obtain ⟨a, ha, rfl⟩ := List.mem_map.mp hp
  exact h a ha (hl a ha)

/-- Invariant transport along append. -/
lemma votesConsistent_append (l₁ l₂ : List Participant)
    (h₁ : ∀ p ∈ l₁, VoteConsistent p) (h₂ : ∀ p ∈ l₂, VoteConsistent p) :
    ∀ p ∈ l₁ ++ l₂, VoteConsistent p := by
  intro p hp
  rcases List.mem_append.mp hp with h | h
  · exact h₁ p h
  · exact h₂ p h

/-- Invariant transport along filter. -/
lemma votesConsistent_filter (l : List Participant) (q : Participant → Bool)
    (h : ∀ p ∈ l, VoteConsistent p) :
    ∀ p ∈ l.filter q, VoteConsistent p :=
  fun p hp => h p (List.mem_of_mem_filter hp)

/-- C9: every mutation of the API preserves vote/has-voted consistency
(has_voted = true implies a vote value is present): castVote sets both fields
in the same single row update, resetVotes clears both in the same single row
update, and no other mutation breaks the invariant. -/
theorem mutations_preserve_vote_consistency :
    (∀ (db : DB) (o : StoreOracle) (pid sid : String) (frac : List Nat)
        (nm onm : String) (av : Option String) (now : Nat), VotesConsistent db →
      VotesConsistent (createSession db o pid sid frac nm onm av now).1) ∧
    (∀ (db : DB) (np rc pn : String) (av : Option String) (now : Nat),
      VotesConsistent db → VotesConsistent (joinSession db np rc pn av now).1) ∧
    (∀ (db : DB) (pid v : String), VotesConsistent db →
      VotesConsistent (updateParticipantVote db pid v)) ∧
    (∀ (db : DB) (sid : String), VotesConsistent db →
      VotesConsistent (revealVotes db sid)) ∧
    (∀ (db : DB) (sid : String), VotesConsistent db →
      VotesConsistent (resetVotes db sid)) ∧
    (∀ (db : DB) (nid sid t : String) (d : Option String) (now : Nat),
      VotesConsistent db → VotesConsistent (addStory db nid sid t d now).1) ∧
    (∀ (db : DB) (stid : String) (u : StoryUpdates), VotesConsistent db →
      VotesConsistent (updateStory db stid u)) ∧
    (∀ (db : DB) (stid : String), VotesConsistent db →
      VotesConsistent (deleteStory db stid)) ∧
    (∀ (db : DB) (sid stid : String), VotesConsistent db →
      VotesConsistent (updateCurrentStory db sid stid)) ∧
    (∀ (db : DB) (pid : String), VotesConsistent db →
      VotesConsistent (removeParticipant db pid)) ∧
    (∀ (db : DB) (pid : String) (now : Nat), VotesConsistent db →
      VotesConsistent (updateParticipantLastSeen db pid now)) := by
  have horg : ∀ (pid onm : String) (av : Option String) (now : Nat),
      ∀ p ∈ [organizerRow pid onm av now], VoteConsistent p := by
    intro pid onm av now p hp
    rw [List.mem_singleton.mp hp]
    intro hh
    simp [organizerRow] at hh
  refine ⟨?_, ?_, ?_, ?_, ?_, ?_, ?_, ?_, ?_, ?_, ?_⟩
  · intro db o pid sid frac nm onm av now hv
    rcases o with ⟨op, os, ou⟩
    cases op with
    | false => exact hv
    | true =>
      cases os with
      | false => exact votesConsistent_append _ _ hv (horg pid onm av now)
      | true =>
        cases ou with
        | false => exact votesConsistent_append _ _ hv (horg pid onm av now)
        | true =>
          refine votesConsistent_map _ _
            (votesConsistent_append _ _ hv (horg pid onm av now)) ?_
          intro p _ hc
          by_cases hp : p.id = pid
          · simp only [if_pos hp]
            exact fun hh => hc hh
          · simp only [if_neg hp]
            exact hc
  · intro db np rc pn av now hv
    rcases hs : singleRow (db.sessions.filter fun s => s.room_code = jsToUpper rc)
        with - | s
    · simpa only [joinSession, hs] using hv
    · rcases hp : singleRow (db.participants.filter fun p =>
          p.session_id = some s.id ∧ p.name = pn) with - | q
      · simp only [joinSession, hs, hp]
        refine votesConsistent_append _ _ hv ?_
        intro p hpp
        rw [List.mem_singleton.mp hpp]
        intro hh
        simp at hh
      · simpa only [joinSession, hs, hp] using hv
  · intro db pid v hv
    refine votesConsistent_map _ _ hv ?_
    intro p _ hc
    by_cases hp : p.id = pid
    · simp only [if_pos hp]
      intro _
      simp
    · simp only [if_neg hp]
      exact hc
  · intro db sid hv
    exact hv
  · intro db sid hv
    refine votesConsistent_map _ _ hv ?_
    intro p _ hc
    by_cases hp : p.session_id = some sid
    · simp only [if_pos hp]
      intro hh
      simp at hh
    · simp only [if_neg hp]
      exact hc
  · intro db nid sid t d now hv
    exact hv
  · intro db stid u hv
    exact hv
  · intro db stid hv
    exact hv
  · intro db sid stid hv
    exact hv
  · intro db pid hv
    exact votesConsistent_filter _ _ hv
  · intro db pid now hv
    refine votesConsistent_map _ _ hv ?_
    intro p _ hc
    by_cases hp : p.id = pid
    · simp only [if_pos hp]
      exact fun hh => hc hh
    · simp only [if_neg hp]
      exact hc

/-- Witness for C9: on the fixture store (which satisfies the invariant),
casting a vote and resetting both preserve it. -/
theorem mutations_preserve_vote_consistency_witness :
    VotesConsistent (updateParticipantVote wDb "p1" "3") ∧
    VotesConsistent (resetVotes wDb "s1") := by
  constructor
  · exact mutations_preserve_vote_consistency.2.2.1 wDb "p1" "3" (by decide)
  · exact mutations_preserve_vote_consistency.2.2.2.2.1 wDb "s1" (by decide)

end PlanningPoker
